import Mathlib

/-!
# Verification of the mctrlrs RCON core

A shallow embedding of the RCON protocol client found in
`src/core/server/rcon.rs`, the connection-manager actor in
`src/core/server/actor.rs`, and the command façade in
`src/core/server/client.rs`, together with theorems settling the
specification's claims about them.

Machine integers (`i32`) are modelled as `Int` with explicit two's-complement
wrapping at the byte boundary; byte streams are `List Nat` (each element a
byte value); Rust `String`s are Lean `String`s, serialised through an explicit
UTF-8 codec.
-/

set_option maxHeartbeats 1000000

namespace Mctrlrs

/-! ## Little-endian `i32` byte codec (`i32::to_le_bytes` / `i32::from_le_bytes`) -/

/-- Model of `i32::to_le_bytes`: two's-complement representation of `x`, least
significant byte first. -/
def i32ToLeBytes (x : Int) : List Nat :=
  let n := (x % 4294967296).toNat
  [n % 256, n / 256 % 256, n / 65536 % 256, n / 16777216 % 256]

/-- Model of `i32::from_le_bytes`: reassemble a signed 32-bit value from four bytes,
least significant first. -/
def i32FromLeBytes (b0 b1 b2 b3 : Nat) : Int :=
  let n := b0 % 256 + 256 * (b1 % 256) + 65536 * (b2 % 256) + 16777216 * (b3 % 256)
  if n < 2147483648 then (n : Int) else (n : Int) - 4294967296

theorem i32_le_roundtrip (x : Int) (h0 : -2147483648 ≤ x) (h1 : x < 2147483648) :
    i32FromLeBytes ((i32ToLeBytes x).getD 0 0) ((i32ToLeBytes x).getD 1 0)
      ((i32ToLeBytes x).getD 2 0) ((i32ToLeBytes x).getD 3 0) = x := by
  simp only [i32ToLeBytes, i32FromLeBytes, List.getD_cons_zero, List.getD_cons_succ]
  split <;> omega

theorem i32ToLeBytes_length (x : Int) : (i32ToLeBytes x).length = 4 := rfl

/-! ## UTF-8 codec

Rust's `str::as_bytes` / `str::from_utf8` pair, modelled as an explicit
encoder from unicode scalar values and a strict decoder that rejects
continuation-byte misuse, overlong forms, surrogates and out-of-range values.
-/

/-- Encode one unicode scalar value as 1–4 UTF-8 bytes. -/
def utf8EncodeChar (c : Nat) : List Nat :=
  if c < 128 then [c]
  else if c < 2048 then [192 + c / 64, 128 + c % 64]
  else if c < 65536 then [224 + c / 4096, 128 + c / 64 % 64, 128 + c % 64]
  else [240 + c / 262144, 128 + c / 4096 % 64, 128 + c / 64 % 64, 128 + c % 64]

/-- Model of `str::as_bytes` on a string given as its scalar values. -/
def utf8Encode : List Char → List Nat
  | [] => []
  | c :: cs => utf8EncodeChar c.toNat ++ utf8Encode cs

/-- A UTF-8 continuation byte: high bits `10`. -/
def utf8Cont (b : Nat) : Bool := 128 ≤ b && b < 192

/-- Decode one scalar value from the head of a byte stream, returning the
value and the remaining bytes.  Strict: rejects bytes `0x80..0xC1` and
`0xF5..` as lead bytes, non-continuation follow bytes, overlong encodings,
surrogates and values above `0x10FFFF`. -/
def utf8DecodeChar (b0 : Nat) (rest : List Nat) : Option (Nat × List Nat) :=
  if b0 < 128 then some (b0, rest)
  else if b0 < 194 then none
  else if b0 < 224 then
    match rest with
    | b1 :: rest1 =>
      if utf8Cont b1 then some ((b0 - 192) * 64 + (b1 - 128), rest1) else none
    | [] => none
  else if b0 < 240 then
    match rest with
    | b1 :: b2 :: rest2 =>
      if utf8Cont b1 && utf8Cont b2 &&
          decide (2048 ≤ (b0 - 224) * 4096 + (b1 - 128) * 64 + (b2 - 128)) &&
          !(decide (55296 ≤ (b0 - 224) * 4096 + (b1 - 128) * 64 + (b2 - 128)) &&
            decide ((b0 - 224) * 4096 + (b1 - 128) * 64 + (b2 - 128) < 57344)) then
        some ((b0 - 224) * 4096 + (b1 - 128) * 64 + (b2 - 128), rest2)
      else none
    | _ => none
  else if b0 < 245 then
    match rest with
    | b1 :: b2 :: b3 :: rest3 =>
      if utf8Cont b1 && utf8Cont b2 && utf8Cont b3 &&
          decide (65536 ≤ (b0 - 240) * 262144 + (b1 - 128) * 4096 + (b2 - 128) * 64 + (b3 - 128)) &&
          decide ((b0 - 240) * 262144 + (b1 - 128) * 4096 + (b2 - 128) * 64 + (b3 - 128) < 1114112) then
        some ((b0 - 240) * 262144 + (b1 - 128) * 4096 + (b2 - 128) * 64 + (b3 - 128), rest3)
      else none
    | _ => none
  else none

theorem utf8DecodeChar_length {b0 : Nat} {rest rest' : List Nat} {c : Nat}
    (h : utf8DecodeChar b0 rest = some (c, rest')) : rest'.length ≤ rest.length := by
  unfold utf8DecodeChar at h
  repeat' split at h
  all_goals simp_all
  all_goals omega

/-- Model of `str::from_utf8`: decode a byte list into scalar values, or `none`
if the bytes are not valid UTF-8. -/
def utf8Decode (l : List Nat) : Option (List Char) :=
  match l with
  | [] => some []
  | b0 :: rest =>
    match h : utf8DecodeChar b0 rest with
    | some (c, rest') =>
      match utf8Decode rest' with
      | some cs => some (Char.ofNat c :: cs)
      | none => none
    | none => none
termination_by l.length
decreasing_by
  simp only [List.length_cons]
  have := utf8DecodeChar_length h
  omega

theorem utf8Decode_cons (b0 : Nat) (rest : List Nat) :
    utf8Decode (b0 :: rest) =
      match utf8DecodeChar b0 rest with
      | some (c, rest') =>
        match utf8Decode rest' with
        | some cs => some (Char.ofNat c :: cs)
        | none => none
      | none => none := by
  rw [utf8Decode]
  split <;> rename_i hd <;> rw [hd]

theorem utf8DecodeChar_encodeChar (n : Nat)
    (hv : n < 55296 ∨ (57343 < n ∧ n < 1114112)) (l : List Nat) :
    ∃ b0 bs, utf8EncodeChar n = b0 :: bs ∧ utf8DecodeChar b0 (bs ++ l) = some (n, l) := by
  rcases Nat.lt_or_ge n 128 with h1 | h1
  · refine ⟨n, [], ?_, ?_⟩
    · rw [utf8EncodeChar, if_pos h1]
    · show utf8DecodeChar n l = some (n, l)
      unfold utf8DecodeChar
      rw [if_pos h1]
  · rcases Nat.lt_or_ge n 2048 with h2 | h2
    · refine ⟨192 + n / 64, [128 + n % 64], ?_, ?_⟩
      · rw [utf8EncodeChar, if_neg (by omega), if_pos h2]
      · show utf8DecodeChar (192 + n / 64) ((128 + n % 64) :: l) = some (n, l)
        unfold utf8DecodeChar
        rw [if_neg (by omega), if_neg (by omega), if_pos (by omega)]
        have hc : utf8Cont (128 + n % 64) = true := by
          simp only [utf8Cont, Bool.and_eq_true, decide_eq_true_eq]
          omega
        simp only [hc, if_true]
        simp only [Option.some.injEq, Prod.mk.injEq]
        exact ⟨by omega, by trivial⟩
    · rcases Nat.lt_or_ge n 65536 with h3 | h3
      · refine ⟨224 + n / 4096, [128 + n / 64 % 64, 128 + n % 64], ?_, ?_⟩
        · rw [utf8EncodeChar, if_neg (by omega), if_neg (by omega), if_pos h3]
        · show utf8DecodeChar (224 + n / 4096)
            ((128 + n / 64 % 64) :: (128 + n % 64) :: l) = some (n, l)
          unfold utf8DecodeChar
          rw [if_neg (by omega), if_neg (by omega), if_neg (by omega), if_pos (by omega)]
          have hc : (utf8Cont (128 + n / 64 % 64) && utf8Cont (128 + n % 64) &&
              decide (2048 ≤ (224 + n / 4096 - 224) * 4096 +
                (128 + n / 64 % 64 - 128) * 64 + (128 + n % 64 - 128)) &&
              !(decide (55296 ≤ (224 + n / 4096 - 224) * 4096 +
                  (128 + n / 64 % 64 - 128) * 64 + (128 + n % 64 - 128)) &&
                decide ((224 + n / 4096 - 224) * 4096 +
                  (128 + n / 64 % 64 - 128) * 64 + (128 + n % 64 - 128) < 57344))) = true := by
            simp only [utf8Cont, Bool.and_eq_true, Bool.not_eq_true', Bool.and_eq_false_iff,
              decide_eq_true_eq, decide_eq_false_iff_not]
            omega
          simp only [hc, if_true]
          simp only [Option.some.injEq, Prod.mk.injEq]
          exact ⟨by omega, by trivial⟩
      · refine ⟨240 + n / 262144, [128 + n / 4096 % 64, 128 + n / 64 % 64, 128 + n % 64], ?_, ?_⟩
        · rw [utf8EncodeChar, if_neg (by omega), if_neg (by omega), if_neg (by omega)]
        · show utf8DecodeChar (240 + n / 262144)
            ((128 + n / 4096 % 64) :: (128 + n / 64 % 64) :: (128 + n % 64) :: l) = some (n, l)
          unfold utf8DecodeChar
          rw [if_neg (by omega), if_neg (by omega), if_neg (by omega), if_neg (by omega),
            if_pos (by omega)]
          have hc : (utf8Cont (128 + n / 4096 % 64) && utf8Cont (128 + n / 64 % 64) &&
              utf8Cont (128 + n % 64) &&
              decide (65536 ≤ (240 + n / 262144 - 240) * 262144 +
                (128 + n / 4096 % 64 - 128) * 4096 +
                (128 + n / 64 % 64 - 128) * 64 + (128 + n % 64 - 128)) &&
              decide ((240 + n / 262144 - 240) * 262144 +
                (128 + n / 4096 % 64 - 128) * 4096 +
                (128 + n / 64 % 64 - 128) * 64 + (128 + n % 64 - 128) < 1114112)) = true := by
            simp only [utf8Cont, Bool.and_eq_true, decide_eq_true_eq]
            omega
          simp only [hc, if_true]
          simp only [Option.some.injEq, Prod.mk.injEq]
          exact ⟨by omega, by trivial⟩

theorem char_valid_ranges (c : Char) :
    c.toNat < 55296 ∨ (57343 < c.toNat ∧ c.toNat < 1114112) := c.valid

theorem utf8Decode_encode_append (cs : List Char) (l : List Nat) :
    utf8Decode (utf8Encode cs ++ l) = (utf8Decode l).map (fun ds => cs ++ ds) := by
  induction cs with
  | nil =>
    simp only [utf8Encode, List.nil_append]
    cases utf8Decode l <;> simp
  | cons c cs ih =>
    obtain ⟨b0, bs, he, hd⟩ :=
      utf8DecodeChar_encodeChar c.toNat (char_valid_ranges c) (utf8Encode cs ++ l)
    simp only [utf8Encode, he, List.cons_append, List.append_assoc]
    rw [utf8Decode_cons, hd]
    cases hl : utf8Decode l <;> simp [ih, hl]

theorem utf8Decode_utf8Encode (cs : List Char) : utf8Decode (utf8Encode cs) = some cs := by
  have h := utf8Decode_encode_append cs []
  simpa [utf8Decode] using h

theorem utf8EncodeChar_ne_nil (n : Nat) : utf8EncodeChar n ≠ [] := by
  unfold utf8EncodeChar
  split <;> (try split) <;> (try split) <;> simp

theorem utf8Encode_eq_nil_iff (cs : List Char) : utf8Encode cs = [] ↔ cs = [] := by
  cases cs with
  | nil => simp [utf8Encode]
  | cons c cs =>
    simp only [utf8Encode, List.append_eq_nil]
    have := utf8EncodeChar_ne_nil c.toNat
    simp_all

/-! ## Packet data model (`rcon.rs`)

`RconError`, `RconPacketType` and `RconPacket`, with the constructors and the
`encode`/`decode` pair of `impl RconPacket`.  I/O-failure payloads
(`io::Error` values) carry no information relevant to the claims and are
dropped from the corresponding error constructors.
-/

/-- The `RconError` taxonomy of `rcon.rs`. -/
inductive RconError
  | Connect
  | Decode (msg : String)
  | PayloadTooBig (maxSize got : Nat)
  | Write
  | Read
  | AuthFail
  | IdMismatch (expected got : Int)
  | InvalidId (id : Int)
  | InvalidPacketType (expected got : String)
  | Shutdown
  | SizeError
  | UnexpectedPackedEnd
deriving DecidableEq, Repr

/-- The three packet types of the wire protocol. -/
inductive RconPacketType
  | Authentication
  | Command
  | Response
deriving DecidableEq, Repr

/-- Model of `fmt::Display for RconPacketType`. -/
def RconPacketType.display : RconPacketType → String
  | .Authentication => "authentication"
  | .Command => "command"
  | .Response => "response"

/-- The wire tag of a packet type (`IntoIterator for RconPacketType` writes
this value in little-endian). -/
def RconPacketType.toWire : RconPacketType → Int
  | .Response => 0
  | .Command => 2
  | .Authentication => 3

/-- Model of `TryFrom<i32> for RconPacketType`: only `0` and `2` decode. -/
def RconPacketType.tryFrom (value : Int) : Except RconError RconPacketType :=
  if value = 0 then .ok .Response
  else if value = 2 then .ok .Command
  else .error (.Decode ("Expected message type to be 0, got: " ++ toString value))

/-- A decoded or to-be-encoded packet. -/
structure RconPacket where
  id : Int
  packet_type : RconPacketType
  payload : String
deriving DecidableEq, Repr

/-- Byte representation of a Rust `String` (`str::as_bytes`). -/
def strBytes (s : String) : List Nat := utf8Encode s.data

namespace RconPacket

def MIN_PACKET_SIZE : Nat := 10
def MAX_PACKET_SIZE : Nat := 4106
def PACKET_PAD_SIZE : Nat := 2
def MAX_CLIENT_PAYLOAD_SIZE : Nat := 1446

/-- Model of `RconPacket::new`: validates `id ≥ 0` and the payload byte length. -/
def new (id : Int) (message_type : RconPacketType) (payload : String) :
    Except RconError RconPacket :=
  if id < 0 then .error (.InvalidId id)
  else if MAX_CLIENT_PAYLOAD_SIZE < (strBytes payload).length then
    .error (.PayloadTooBig MAX_CLIENT_PAYLOAD_SIZE (strBytes payload).length)
  else .ok ⟨id, message_type, payload⟩

/-- Model of `RconPacket::authentication`. -/
def authentication (id : Int) (password : String) : Except RconError RconPacket :=
  new id .Authentication password

/-- Model of `RconPacket::command`. -/
def command (id : Int) (payload : String) : Except RconError RconPacket :=
  new id .Command payload

/-- Model of `RconPacket::check`: the empty Response-type fragmentation probe. -/
def check (id : Int) : Except RconError RconPacket :=
  new id .Response ""

/-- The encoded bytes after the 4-byte size prefix:
`id | type | payload | 0x00 0x00`, all integers little-endian. -/
def body (p : RconPacket) : List Nat :=
  i32ToLeBytes p.id ++ i32ToLeBytes p.packet_type.toWire ++ strBytes p.payload ++ [0, 0]

/-- Model of `RconPacket::encode`: size prefix followed by the body; fails with
`SizeError` when the body length does not fit an `i32`. -/
def encode (p : RconPacket) : Except RconError (List Nat) :=
  if (2147483647 : Int) < (p.body.length : Int) then .error .SizeError
  else .ok (i32ToLeBytes (p.body.length : Int) ++ p.body)

/-- Model of `RconPacket::decode`: parse a body buffer (the bytes after the size
prefix) back into a packet. -/
def decode (bytes : List Nat) : Except RconError RconPacket :=
  if bytes.length < MIN_PACKET_SIZE then
    .error (.Decode ("Expected packet length to be at least " ++ toString MIN_PACKET_SIZE
      ++ " bytes, got: " ++ toString bytes.length))
  else
    match bytes with
    | i0 :: i1 :: i2 :: i3 :: t0 :: t1 :: t2 :: t3 :: rest =>
      let id := i32FromLeBytes i0 i1 i2 i3
      match RconPacketType.tryFrom (i32FromLeBytes t0 t1 t2 t3) with
      | .error e => .error e
      | .ok message_type =>
        let payload_size := rest.length - PACKET_PAD_SIZE
        match (if 0 < payload_size then utf8Decode (rest.take payload_size) else some []) with
        | none => .error (.Decode "Failed to convert message body to a UTF-8 string")
        | some cs =>
          if rest.drop payload_size ≠ [0, 0] then
            .error (.Decode "Missing padding at the end of the message")
          else .ok ⟨id, message_type, ⟨cs⟩⟩
    | _ => .error .UnexpectedPackedEnd

end RconPacket


/-! ## Codec round-trip -/

theorem i32FromLeBytes_comps (x : Int) (h0 : -2147483648 ≤ x) (h1 : x < 2147483648) :
    i32FromLeBytes ((x % 4294967296).toNat % 256) ((x % 4294967296).toNat / 256 % 256)
      ((x % 4294967296).toNat / 65536 % 256) ((x % 4294967296).toNat / 16777216 % 256) = x := by
  simp only [i32FromLeBytes]
  split <;> omega

theorem i32ToLeBytes_cons (x : Int) :
    i32ToLeBytes x = [(x % 4294967296).toNat % 256, (x % 4294967296).toNat / 256 % 256,
      (x % 4294967296).toNat / 65536 % 256, (x % 4294967296).toNat / 16777216 % 256] := rfl

/-- Decoding the body that `encode` produces recovers the packet, for any
packet whose id fits an `i32` and whose type tag the decoder accepts. -/
theorem RconPacket.decode_body (p : RconPacket) (hid0 : -2147483648 ≤ p.id)
    (hid1 : p.id < 2147483648) (ht : p.packet_type ≠ .Authentication) :
    RconPacket.decode p.body = .ok p := by
  obtain ⟨pid, pt, pdata⟩ := p
  obtain ⟨pl⟩ := pdata
  simp only at hid0 hid1 ht
  have hwire0 : -2147483648 ≤ pt.toWire := by cases pt <;> decide
  have hwire1 : pt.toWire < 2147483648 := by cases pt <;> decide
  have hdata : (String.mk pl).data = pl := rfl
  simp only [RconPacket.body, i32ToLeBytes_cons, strBytes, hdata, List.cons_append,
    List.nil_append, List.append_assoc]
  unfold RconPacket.decode
  rw [if_neg (by
    simp only [MIN_PACKET_SIZE, List.length_cons, List.length_append, List.length_nil]
    omega)]
  dsimp only
  rw [i32FromLeBytes_comps pid hid0 hid1, i32FromLeBytes_comps pt.toWire hwire0 hwire1]
  have htry : RconPacketType.tryFrom pt.toWire = .ok pt := by
    cases pt <;> simp_all [RconPacketType.tryFrom, RconPacketType.toWire]
  rw [htry]
  dsimp only
  have hlen : (utf8Encode pl ++ [0, 0]).length - PACKET_PAD_SIZE = (utf8Encode pl).length := by
    simp [PACKET_PAD_SIZE]
  rw [hlen, List.take_left' rfl, List.drop_left' rfl]
  by_cases hnil : pl = []
  · subst hnil
    rw [show utf8Encode [] = ([] : List Nat) from rfl]
    rw [if_neg (by simp)]
    dsimp only
    rw [if_neg (by simp)]
  · rw [if_pos (by
      rcases Nat.eq_zero_or_pos (utf8Encode pl).length with hz | hp
      · exact absurd ((utf8Encode_eq_nil_iff pl).mp (List.length_eq_zero.mp hz)) hnil
      · exact hp)]
    rw [utf8Decode_utf8Encode]
    dsimp only
    rw [if_neg (by simp)]

/-! ## Wire reading (`read_size` / `read_packet`)

The TCP stream is modelled as the list of bytes still to be read; reading
returns the value together with the unread remainder.  `read_exact` on an
exhausted stream is an I/O failure, i.e. `RconError::Read`.
-/

/-- Model of `read_size`: read exactly 4 bytes, interpret them as an `i32`, convert to
`usize` (failing on negative values) and validate against
`[MIN_PACKET_SIZE, MAX_PACKET_SIZE]`. -/
def read_size (stream : List Nat) : Except RconError (Nat × List Nat) :=
  match stream with
  | b0 :: b1 :: b2 :: b3 :: rest =>
    if i32FromLeBytes b0 b1 b2 b3 < 0 then
      .error (.Decode "Failed to convert packet size to usize")
    else
      if ¬(RconPacket.MIN_PACKET_SIZE ≤ (i32FromLeBytes b0 b1 b2 b3).toNat ∧
          (i32FromLeBytes b0 b1 b2 b3).toNat ≤ RconPacket.MAX_PACKET_SIZE) then
        .error (.Decode ("A packet size must be between "
          ++ toString RconPacket.MIN_PACKET_SIZE ++ " and "
          ++ toString RconPacket.MAX_PACKET_SIZE ++ " bytes long, server sent: "
          ++ toString (i32FromLeBytes b0 b1 b2 b3).toNat))
      else .ok ((i32FromLeBytes b0 b1 b2 b3).toNat, rest)
  | _ => .error .Read

/-- Model of `read_packet`: read exactly `size` bytes and decode them. -/
def read_packet (stream : List Nat) (size : Nat) :
    Except RconError (RconPacket × List Nat) :=
  if stream.length < size then .error .Read
  else
    match RconPacket.decode (stream.take size) with
    | .ok p => .ok (p, stream.drop size)
    | .error e => .error e

/-- The complete wire frame of a packet: size prefix followed by the body. -/
def frameBytes (p : RconPacket) : List Nat :=
  i32ToLeBytes (p.body.length : Int) ++ p.body

/-- A packet the server can deliver as one well-formed frame: the id fits an
`i32`, the type tag is one the decoder accepts, and the payload keeps the
frame within the maximum frame size. -/
def frameOk (p : RconPacket) : Prop :=
  -2147483648 ≤ p.id ∧ p.id < 2147483648 ∧ p.packet_type ≠ .Authentication ∧
    (strBytes p.payload).length ≤ 4096

instance (p : RconPacket) : Decidable (frameOk p) := by
  unfold frameOk
  infer_instance

theorem RconPacket.body_length (p : RconPacket) :
    p.body.length = 10 + (strBytes p.payload).length := by
  simp only [RconPacket.body, List.length_append, i32ToLeBytes_length, List.length_cons,
    List.length_nil]
  omega

theorem RconPacket.encode_ok (p : RconPacket) (h : p.body.length ≤ 2147483647) :
    p.encode = .ok (frameBytes p) := by
  unfold RconPacket.encode frameBytes
  rw [if_neg (by omega)]

theorem read_size_frame (p : RconPacket) (rest : List Nat)
    (hmax : p.body.length ≤ RconPacket.MAX_PACKET_SIZE) :
    read_size (frameBytes p ++ rest) = .ok (p.body.length, p.body ++ rest) := by
  have hmin := p.body_length
  have h0 : (0 : Int) ≤ (p.body.length : Int) := by positivity
  have h1 : (p.body.length : Int) < 2147483648 := by
    simp only [RconPacket.MAX_PACKET_SIZE] at hmax
    omega
  simp only [frameBytes, i32ToLeBytes_cons, List.cons_append, List.nil_append]
  unfold read_size
  dsimp only
  rw [i32FromLeBytes_comps (p.body.length : Int) (by omega) h1]
  rw [if_neg (by omega)]
  rw [if_neg (by
    simp only [RconPacket.MIN_PACKET_SIZE, RconPacket.MAX_PACKET_SIZE] at hmax ⊢
    simp only [Int.toNat_natCast]
    omega)]
  simp only [Int.toNat_natCast]

theorem read_packet_frame (p : RconPacket) (rest : List Nat)
    (hid0 : -2147483648 ≤ p.id) (hid1 : p.id < 2147483648)
    (ht : p.packet_type ≠ .Authentication) :
    read_packet (p.body ++ rest) p.body.length = .ok (p, rest) := by
  unfold read_packet
  rw [if_neg (by simp only [List.length_append]; omega)]
  rw [List.take_left' rfl, List.drop_left' rfl, RconPacket.decode_body p hid0 hid1 ht]

/-- Reading a well-formed frame from the head of the stream yields exactly
the framed packet and leaves the rest of the stream unread. -/
theorem frame_read (p : RconPacket) (rest : List Nat) (hok : frameOk p) :
    read_size (frameBytes p ++ rest) = .ok (p.body.length, p.body ++ rest) ∧
    read_packet (p.body ++ rest) p.body.length = .ok (p, rest) := by
  obtain ⟨hid0, hid1, ht, hpl⟩ := hok
  constructor
  · exact read_size_frame p rest (by
      rw [p.body_length]
      simp only [RconPacket.MAX_PACKET_SIZE]
      omega)
  · exact read_packet_frame p rest hid0 hid1 ht

/-! ## Stream-consumption facts used for loop termination -/

theorem read_size_consumes {stream rest : List Nat} {size : Nat}
    (h : read_size stream = .ok (size, rest)) :
    rest.length + 4 = stream.length ∧ 10 ≤ size ∧ size ≤ 4106 := by
  unfold read_size at h
  split at h
  · split at h
    · simp_all
    · split at h
      · simp_all
      · rename_i hrange
        rw [not_not] at hrange
        simp only [RconPacket.MIN_PACKET_SIZE, RconPacket.MAX_PACKET_SIZE] at hrange
        simp only [Except.ok.injEq, Prod.mk.injEq] at h
        obtain ⟨hs, hr⟩ := h
        subst hs hr
        simp only [List.length_cons]
        exact ⟨trivial, hrange⟩
  · simp_all

theorem read_packet_consumes {stream rest : List Nat} {size : Nat} {p : RconPacket}
    (h : read_packet stream size = .ok (p, rest)) :
    rest.length + size = stream.length := by
  unfold read_packet at h
  split at h
  · simp_all
  · rename_i hlen
    split at h
    · simp only [Except.ok.injEq, Prod.mk.injEq] at h
      obtain ⟨-, hr⟩ := h
      subst hr
      simp only [List.length_drop]
      omega
    · simp_all

/-! ## The connection state machine (`RconClient`)

The TCP stream is split into the bytes still to be received (an explicit
argument) and the packets written so far (an explicit result component, in
write order).  The sequence counter of the `Authenticated` state is passed
and returned explicitly.
-/

/-- Model of `RconClient::<Authenticated>::id`: advance the sequence counter and
return the freshly allocated id.  The new counter value equals the returned
id. -/
def nextId (id : Int) : Int :=
  if id = 2147483647 then 1 else id + 1

/-- The loop of `read_fragmented`, after the probe has been written:
continuation frames matching `id` are appended; a `Response` frame matching
`new_id` either terminates (payload `"Unknown request 0"`) or fails; a
non-`Response` frame matching `new_id` is skipped; any other id fails. -/
def read_fragmented_loop (stream : List Nat) (result : String) (new_id id : Int) :
    Except RconError String :=
  match hs : read_size stream with
  | .error e => .error e
  | .ok (size, rest) =>
    match hp : read_packet rest size with
    | .error e => .error e
    | .ok (packet, rest') =>
      if packet.id = id then
        read_fragmented_loop rest' (result ++ packet.payload) new_id id
      else if packet.id = new_id then
        if packet.packet_type = .Response then
          if packet.payload = "Unknown request 0" then .ok result
          else .error (.InvalidPacketType RconPacketType.Response.display
            packet.packet_type.display)
        else
          read_fragmented_loop rest' result new_id id
      else .error (.IdMismatch new_id packet.id)
termination_by stream.length
decreasing_by
  all_goals
    have h1 := read_size_consumes hs
    have h2 := read_packet_consumes hp
    omega

/-- Model of `read_fragmented`: write the empty Response-type probe carrying `new_id`,
then run the reassembly loop.  The second component lists the packets
written. -/
def read_fragmented (stream : List Nat) (result : String) (new_id id : Int) :
    Except RconError String × List RconPacket :=
  match RconPacket.check new_id with
  | .error e => (.error e, [])
  | .ok probe =>
    match probe.encode with
    | .error e => (.error e, [])
    | .ok _ => (read_fragmented_loop stream result new_id id, [probe])

/-- Model of `RconClient::<Authenticated>::command`: allocate the next sequence id,
write a Command packet, read one response frame, correlate, and reassemble a
fragmented response when the frame size equals the maximum frame size.
Returns the result, the final sequence counter and the packets written. -/
def RconClient.command (seq : Int) (data : String) (stream : List Nat) :
    Except RconError String × Int × List RconPacket :=
  let id := nextId seq
  match RconPacket.command id data with
  | .error e => (.error e, id, [])
  | .ok pkt =>
    match pkt.encode with
    | .error e => (.error e, id, [])
    | .ok _ =>
      match read_size stream with
      | .error e => (.error e, id, [pkt])
      | .ok (size, rest) =>
        match read_packet rest size with
        | .error e => (.error e, id, [pkt])
        | .ok (packet, rest') =>
          if packet.id ≠ id then (.error (.IdMismatch 0 packet.id), id, [pkt])
          else if packet.packet_type = .Response then
            if size = RconPacket.MAX_PACKET_SIZE then
              let new_id := nextId id
              let fr := read_fragmented rest' packet.payload new_id id
              (fr.1, new_id, pkt :: fr.2)
            else (.ok packet.payload, id, [pkt])
          else (.error (.InvalidPacketType RconPacketType.Response.display
            packet.packet_type.display), id, [pkt])

/-- Model of `RconClient::<Connected>::authenticate`: write an Authentication packet
with id 0 carrying the password, read one frame, and dispatch on it.  An
`.ok` value is the sequence counter of the resulting Authenticated state. -/
def RconClient.authenticate (password : String) (stream : List Nat) :
    Except RconError Int × List RconPacket :=
  match RconPacket.authentication 0 password with
  | .error e => (.error e, [])
  | .ok request =>
    match request.encode with
    | .error e => (.error e, [])
    | .ok _ =>
      match read_size stream with
      | .error e => (.error e, [request])
      | .ok (size, rest) =>
        match read_packet rest size with
        | .error e => (.error e, [request])
        | .ok (packet, _) =>
          (if packet.packet_type = .Command then
            if packet.id = -1 then .error .AuthFail
            else if packet.id = 0 then .ok 0
            else .error (.IdMismatch 0 packet.id)
          else .error (.InvalidPacketType RconPacketType.Command.display
            packet.packet_type.display), [request])

/-! ## The connection manager (`actor.rs`)

`RconActor` holds `Option<RconClient<Authenticated>>`; an Authenticated
client is abstracted to its sequence counter.  TCP connection success and
the bytes arriving for the authentication exchange and for the command
exchange are explicit oracle arguments. -/

/-- Model of `actor::Command`. -/
inductive ActorCommand
  | Stop
  | Other (cmd : String)
deriving DecidableEq, Repr

/-- Model of `From<Command> for String`. -/
def ActorCommand.toCommandString : ActorCommand → String
  | .Stop => "stop"
  | .Other cmd => cmd

/-- Model of the `actix::Handler<Command>` implementation, `RconActor::handle`: take the cached client
or connect-and-authenticate, run the command, and decide whether the client
stays cached.  Returns the reply and the new cached-client state. -/
def RconActor.handle (client : Option Int) (msg : ActorCommand) (connectOk : Bool)
    (password : String) (authStream cmdStream : List Nat) :
    Except RconError String × Option Int :=
  match (match client with
         | some c => Except.ok c
         | none =>
           if connectOk then (RconClient.authenticate password authStream).1
           else Except.error RconError.Connect) with
  | .error e => (.error e, none)
  | .ok seq =>
    let should_shutdown : Bool := match msg with | .Stop => true | .Other _ => false
    let res := RconClient.command seq msg.toCommandString cmdStream
    match res.1 with
    | .ok r => if should_shutdown then (.ok r, none) else (.ok r, some res.2.1)
    | .error e => (.error e, none)

/-! ## The command façade (`client.rs`) -/

/-- Model of `client::Error`. -/
inductive ClientError
  | Connect (e : RconError)
  | Authenticate (e : RconError)
  | Command (e : RconError)
  | BrokenConnection (e : RconError)
  | Actor
  | TickStats (msg : String)
deriving DecidableEq, Repr

/-- Model of `client::TickStats`. -/
structure TickStats where
  average : String
  target : String
  p50 : String
  p95 : String
  p99 : String
deriving DecidableEq, Repr

/-- The error mapping of `client::run_command`. -/
def classifyError (e : RconError) : ClientError :=
  match e with
  | .Read => .BrokenConnection .Read
  | .Write => .BrokenConnection .Write
  | .Connect => .Connect .Connect
  | .AuthFail => .Authenticate .AuthFail
  | e => .Command e

/-- Model of `client::run_command`: dispatch a command to the actor (abstracted as a
function) and classify any error. -/
def run_command (actor : ActorCommand → Except RconError String)
    (command : ActorCommand) : Except ClientError String :=
  match actor command with
  | .ok s => .ok s
  | .error e => .error (classifyError e)

/-- Model of `str::split_once`: split around the first occurrence of `sep`, or `none`
when `sep` does not occur. -/
def splitOnceChars (sep : List Char) : List Char → Option (List Char × List Char)
  | [] => none
  | c :: cs =>
    if (c :: cs).take sep.length = sep then some ([], (c :: cs).drop sep.length)
    else
      match splitOnceChars sep cs with
      | some (a, b) => some (c :: a, b)
      | none => none

theorem splitOnceChars_shrinks {sep l a b : List Char} (hsep : sep ≠ [])
    (h : splitOnceChars sep l = some (a, b)) : b.length < l.length := by
  induction l generalizing a with
  | nil => simp [splitOnceChars] at h
  | cons c cs ih =>
    unfold splitOnceChars at h
    split at h
    · rename_i htake
      simp only [Option.some.injEq, Prod.mk.injEq] at h
      obtain ⟨-, hb⟩ := h
      subst hb
      have hlen : sep.length ≤ (c :: cs).length := by
        have hth := congrArg List.length htake
        simp only [List.length_take] at hth
        omega
      have hpos : 0 < sep.length := List.length_pos.mpr hsep
      simp only [List.length_drop, List.length_cons]
      have : sep.length ≤ cs.length + 1 := by simpa using hlen
      omega
    · split at h
      · rename_i a' b' heq
        simp only [Option.some.injEq, Prod.mk.injEq] at h
        obtain ⟨-, hb⟩ := h
        subst hb
        have := ih heq
        simp only [List.length_cons]
        omega
      · simp_all

/-- Model of `str::split` restricted to a literal separator: all fragments around
every occurrence of `sep`, in order. -/
def splitAllChars (sep : List Char) (l : List Char) (hsep : sep ≠ []) : List (List Char) :=
  match hs : splitOnceChars sep l with
  | some (a, b) => a :: splitAllChars sep b hsep
  | none => [l]
termination_by l.length
decreasing_by
  exact splitOnceChars_shrinks hsep hs

/-- Model of `Client::list`: run the `"list"` command and parse
`"<prefix>: <name>, <name>, ..."`. -/
def Client.list (actor : ActorCommand → Except RconError String) :
    Except ClientError (List String) :=
  match run_command actor (.Other "list") with
  | .error e => .error e
  | .ok listres =>
    .ok (match splitOnceChars ": ".data listres.data with
      | some (_, players) =>
        if players = [] then []
        else (splitAllChars ", ".data players (by decide)).map (fun w => (⟨w⟩ : String))
      | none => [])

/-- The character strip of `Client::query_tick`:
`replace([':', ',', '(', ')'], " ")`. -/
def stripTickChars (s : String) : String :=
  ⟨s.data.map (fun c => if c = ':' ∨ c = ',' ∨ c = '(' ∨ c = ')' then ' ' else c)⟩

/-- ASCII whitespace, as used by `str::split_whitespace` on the responses at
hand. -/
def isWsChar (c : Char) : Bool :=
  c = ' ' || c = '\t' || c = '\n' || c = '\x0b' || c = '\x0c' || c = '\r'

/-- Model of `str::split_whitespace`: maximal runs of non-whitespace characters. -/
def splitWhitespaceChars (l : List Char) : List (List Char) :=
  (l.splitOnP isWsChar).filter (fun w => w ≠ [])

/-- Model of `str::ends_with("ms")` on a token. -/
def endsWithMs (w : List Char) : Bool := List.isSuffixOf ['m', 's'] w

/-- The `"ms"`-suffixed whitespace-separated tokens of the stripped response,
in order. -/
def tickTimings (response : String) : List (List Char) :=
  (splitWhitespaceChars (stripTickChars response).data).filter endsWithMs

/-- Model of `Client::query_tick`: run `"tick query"` and extract the five timing
tokens. -/
def Client.query_tick (actor : ActorCommand → Except RconError String) :
    Except ClientError TickStats :=
  match run_command actor (.Other "tick query") with
  | .error e => .error e
  | .ok tick_stats =>
    if (tickTimings tick_stats).length ≠ 5 then
      .error (.TickStats tick_stats)
    else
      .ok ⟨⟨(tickTimings tick_stats).getD 0 []⟩, ⟨(tickTimings tick_stats).getD 1 []⟩,
        ⟨(tickTimings tick_stats).getD 2 []⟩, ⟨(tickTimings tick_stats).getD 3 []⟩,
        ⟨(tickTimings tick_stats).getD 4 []⟩⟩

/-! ## Unfolding lemmas for single-frame exchanges -/

/-- One iteration of the reassembly loop on a well-formed frame at the head
of the stream. -/
theorem read_fragmented_loop_frame (p : RconPacket) (rest : List Nat) (acc : String)
    (new_id id : Int) (hp : frameOk p) :
    read_fragmented_loop (frameBytes p ++ rest) acc new_id id =
      (if p.id = id then read_fragmented_loop rest (acc ++ p.payload) new_id id
       else if p.id = new_id then
         if p.packet_type = .Response then
           if p.payload = "Unknown request 0" then .ok acc
           else .error (.InvalidPacketType RconPacketType.Response.display
             p.packet_type.display)
         else read_fragmented_loop rest acc new_id id
       else .error (.IdMismatch new_id p.id)) := by
  obtain ⟨hrs, hrp⟩ := frame_read p rest hp
  rw [read_fragmented_loop]
  split
  · rename_i heq
    rw [hrs] at heq
    simp at heq
  · rename_i size rest1 heq
    rw [hrs] at heq
    simp only [Except.ok.injEq, Prod.mk.injEq] at heq
    obtain ⟨hsize, hrest⟩ := heq
    subst hsize hrest
    split
    · rename_i heq2
      rw [hrp] at heq2
      simp at heq2
    · rename_i packet rest2 heq2
      rw [hrp] at heq2
      simp only [Except.ok.injEq, Prod.mk.injEq] at heq2
      obtain ⟨hpk, hr2⟩ := heq2
      subst hpk hr2
      rfl

/-- Evaluation of `command` when the stream starts with one well-formed
frame. -/
theorem command_first_frame (seq : Int) (data : String) (p : RconPacket) (rest : List Nat)
    (h0 : 0 ≤ seq)
    (hdata : (strBytes data).length ≤ RconPacket.MAX_CLIENT_PAYLOAD_SIZE)
    (hp : frameOk p) :
    RconClient.command seq data (frameBytes p ++ rest) =
      (if p.id ≠ nextId seq then
         (.error (.IdMismatch 0 p.id), nextId seq, [⟨nextId seq, .Command, data⟩])
       else if p.packet_type = .Response then
         if p.body.length = RconPacket.MAX_PACKET_SIZE then
           ((read_fragmented rest p.payload (nextId (nextId seq)) (nextId seq)).1,
             nextId (nextId seq),
             ⟨nextId seq, .Command, data⟩ ::
               (read_fragmented rest p.payload (nextId (nextId seq)) (nextId seq)).2)
         else (.ok p.payload, nextId seq, [⟨nextId seq, .Command, data⟩])
       else (.error (.InvalidPacketType RconPacketType.Response.display
         p.packet_type.display), nextId seq, [⟨nextId seq, .Command, data⟩])) := by
  have hid : 1 ≤ nextId seq := by unfold nextId; split <;> omega
  have hcmd : RconPacket.command (nextId seq) data =
      .ok ⟨nextId seq, .Command, data⟩ := by
    unfold RconPacket.command RconPacket.new
    rw [if_neg (by omega), if_neg (by omega)]
  have henc : (⟨nextId seq, .Command, data⟩ : RconPacket).encode =
      .ok (frameBytes ⟨nextId seq, .Command, data⟩) := by
    apply RconPacket.encode_ok
    rw [RconPacket.body_length]
    dsimp only
    simp only [RconPacket.MAX_CLIENT_PAYLOAD_SIZE] at hdata
    omega
  obtain ⟨hrs, hrp⟩ := frame_read p rest hp
  unfold RconClient.command
  dsimp only
  rw [hcmd]
  dsimp only
  rw [henc]
  dsimp only
  rw [hrs]
  dsimp only
  rw [hrp]

/-- Evaluation of `authenticate` when the stream starts with one well-formed
frame. -/
theorem authenticate_first_frame (password : String) (p : RconPacket) (rest : List Nat)
    (hpw : (strBytes password).length ≤ RconPacket.MAX_CLIENT_PAYLOAD_SIZE)
    (hp : frameOk p) :
    RconClient.authenticate password (frameBytes p ++ rest) =
      (if p.packet_type = .Command then
         if p.id = -1 then .error .AuthFail
         else if p.id = 0 then .ok 0
         else .error (.IdMismatch 0 p.id)
       else .error (.InvalidPacketType RconPacketType.Command.display
         p.packet_type.display),
       [⟨0, .Authentication, password⟩]) := by
  have hreq : RconPacket.authentication 0 password =
      .ok ⟨0, .Authentication, password⟩ := by
    unfold RconPacket.authentication RconPacket.new
    rw [if_neg (by omega), if_neg (by omega)]
  have henc : (⟨0, .Authentication, password⟩ : RconPacket).encode =
      .ok (frameBytes ⟨0, .Authentication, password⟩) := by
    apply RconPacket.encode_ok
    rw [RconPacket.body_length]
    dsimp only
    simp only [RconPacket.MAX_CLIENT_PAYLOAD_SIZE] at hpw
    omega
  obtain ⟨hrs, hrp⟩ := frame_read p rest hp
  unfold RconClient.authenticate
  rw [hreq]
  dsimp only
  rw [henc]
  dsimp only
  rw [hrs]
  dsimp only
  rw [hrp]

/-! ## Multi-frame streams -/

/-- The concatenated wire bytes of a sequence of frames. -/
def framesBytes : List RconPacket → List Nat
  | [] => []
  | p :: ps => frameBytes p ++ framesBytes ps

/-- The concatenation, in order, of the payloads of a sequence of frames. -/
def payloadsConcat : List RconPacket → String
  | [] => ""
  | p :: ps => p.payload ++ payloadsConcat ps

/-- Running the reassembly loop over continuation frames for `id` followed by
the terminator frame accumulates every continuation payload in receipt order
and stops at the terminator. -/
theorem read_fragmented_loop_spec (conts : List RconPacket) (acc : String)
    (new_id id : Int) (term : RconPacket)
    (hconts : ∀ p ∈ conts, frameOk p ∧ p.id = id)
    (htermok : frameOk term) (htermid : term.id = new_id)
    (htermty : term.packet_type = .Response)
    (htermpl : term.payload = "Unknown request 0")
    (hne : new_id ≠ id) :
    read_fragmented_loop (framesBytes conts ++ frameBytes term) acc new_id id =
      .ok (acc ++ payloadsConcat conts) := by
  induction conts generalizing acc with
  | nil =>
    simp only [framesBytes, List.nil_append, payloadsConcat, String.append_empty]
    rw [show frameBytes term = frameBytes term ++ [] by simp]
    rw [read_fragmented_loop_frame term [] acc new_id id htermok]
    rw [if_neg (by rw [htermid]; exact hne), if_pos htermid, if_pos htermty,
      if_pos htermpl]
  | cons p ps ih =>
    obtain ⟨hpok, hpid⟩ := hconts p (by simp)
    simp only [framesBytes, payloadsConcat, List.append_assoc]
    rw [read_fragmented_loop_frame p (framesBytes ps ++ frameBytes term) acc new_id id hpok]
    rw [if_pos hpid]
    rw [ih (acc ++ p.payload) (fun q hq => hconts q (by simp [hq]))]
    rw [String.append_assoc]

/-! ## `split_once` decomposition facts -/

theorem splitOnceChars_decomp {sep l a b : List Char}
    (h : splitOnceChars sep l = some (a, b)) : l = a ++ sep ++ b := by
  induction l generalizing a with
  | nil => simp [splitOnceChars] at h
  | cons c cs ih =>
    unfold splitOnceChars at h
    split at h
    · rename_i htake
      simp only [Option.some.injEq, Prod.mk.injEq] at h
      obtain ⟨ha, hb⟩ := h
      subst ha hb
      conv_lhs => rw [← List.take_append_drop sep.length (c :: cs)]
      rw [htake]
      simp
    · split at h
      · rename_i a' b' heq
        simp only [Option.some.injEq, Prod.mk.injEq] at h
        obtain ⟨ha, hb⟩ := h
        subst ha hb
        have hcs := ih heq
        rw [hcs]
        simp
      · simp at h

theorem splitOnceChars_none_no_occurrence {sep l : List Char} (hne : sep ≠ [])
    (h : splitOnceChars sep l = none) : ∀ pre post, l ≠ pre ++ sep ++ post := by
  intro pre post hl
  subst hl
  induction pre with
  | nil =>
    unfold splitOnceChars at h
    cases hsep : sep with
    | nil => exact hne hsep
    | cons s ss =>
      rw [hsep] at h
      simp only [List.nil_append, List.cons_append] at h
      rw [if_pos (by
        rw [← hsep]
        rw [show (s :: (ss ++ post)) = sep ++ post by rw [hsep]; simp]
        exact List.take_left' rfl)] at h
      simp at h
  | cons c pre' ih =>
    simp only [List.cons_append] at h
    unfold splitOnceChars at h
    split at h
    · simp at h
    · rename_i hnt
      apply ih
      revert h
      cases hsp : splitOnceChars sep (pre' ++ sep ++ post) with
      | some v => simp [hsp]
      | none => intro; rfl

/-! ## Claims -/

/-- Claim C2, counterexample: the claim includes the Authentication type, but
the decoder maps only tags 0 and 2; decoding the body of an encoded
Authentication packet (tag 3) fails with a `Decode` error, so the round-trip
does not hold for `Authentication`. -/
theorem C2_counterexample :
    RconPacket.decode (RconPacket.body ⟨0, .Authentication, ""⟩) =
      .error (.Decode "Expected message type to be 0, got: 3") := by
  rfl

/-- Claim C2, amended: for every `i32` id ≥ 0, every packet type in
`{Command, Response}` (not `Authentication`, whose tag the decoder rejects),
and every UTF-8 payload of at most 1446 bytes, decoding the body produced by
`encode` (the bytes after the 4-byte size prefix) succeeds and yields a
packet with the same id, type and payload. -/
theorem C2_encode_decode_roundtrip (id : Int) (t : RconPacketType) (payload : String)
    (hid0 : 0 ≤ id) (hid1 : id < 2147483648)
    (ht : t = .Command ∨ t = .Response)
    (hpl : (strBytes payload).length ≤ RconPacket.MAX_CLIENT_PAYLOAD_SIZE) :
    RconPacket.decode (RconPacket.body ⟨id, t, payload⟩) = .ok ⟨id, t, payload⟩ :=
  RconPacket.decode_body ⟨id, t, payload⟩ (by dsimp only; omega) hid1
    (by rcases ht with h | h <;> simp [h])

theorem C2_witness :
    RconPacket.decode (RconPacket.body ⟨3, .Command, "hello"⟩) =
      .ok ⟨3, .Command, "hello"⟩ :=
  C2_encode_decode_roundtrip 3 .Command "hello" (by decide) (by decide)
    (Or.inl rfl) (by decide)

/-- Claim C3: `authenticate` sends an Authentication packet with id 0 carrying
the password, reads one packet, and dispatches: type Command with id −1 is
`AuthFail` regardless of payload, id 0 succeeds with sequence counter 0, any
other id is `IdMismatch(0, id)`, and any other packet type is
`InvalidPacketType`. -/
theorem C3_authenticate_dispatch (password : String) (p : RconPacket) (rest : List Nat)
    (hpw : (strBytes password).length ≤ RconPacket.MAX_CLIENT_PAYLOAD_SIZE)
    (hp : frameOk p) :
    (RconClient.authenticate password (frameBytes p ++ rest)).2 =
      [⟨0, .Authentication, password⟩] ∧
    (p.packet_type = .Command → p.id = -1 →
      (RconClient.authenticate password (frameBytes p ++ rest)).1 = .error .AuthFail) ∧
    (p.packet_type = .Command → p.id = 0 →
      (RconClient.authenticate password (frameBytes p ++ rest)).1 = .ok 0) ∧
    (p.packet_type = .Command → p.id ≠ -1 → p.id ≠ 0 →
      (RconClient.authenticate password (frameBytes p ++ rest)).1 =
        .error (.IdMismatch 0 p.id)) ∧
    (p.packet_type ≠ .Command →
      (RconClient.authenticate password (frameBytes p ++ rest)).1 =
        .error (.InvalidPacketType RconPacketType.Command.display
          p.packet_type.display)) := by
  rw [authenticate_first_frame password p rest hpw hp]
  refine ⟨rfl, ?_, ?_, ?_, ?_⟩
  · intro hc hid
    simp [hc, hid]
  · intro hc hid
    simp [hc, hid]
  · intro hc hid1 hid2
    simp [hc, hid1, hid2]
  · intro hc
    simp [hc]

theorem C3_witness :
    (RconClient.authenticate "pw" (frameBytes ⟨-1, .Command, "denied"⟩ ++ [])).1 =
      .error .AuthFail ∧
    (RconClient.authenticate "pw" (frameBytes ⟨-1, .Command, "denied"⟩ ++ [])).2 =
      [⟨0, .Authentication, "pw"⟩] := by
  have h := C3_authenticate_dispatch "pw" ⟨-1, .Command, "denied"⟩ [] (by decide) (by decide)
  exact ⟨h.2.1 rfl rfl, h.1⟩

/-- Claim C4: the sequence counter starts at 0 (a successful `authenticate`
always yields counter 0) and `nextId` advances it before each outbound
Command or Check packet; at `i32::MAX` the next allocated id is 1, and from
any reachable counter value the allocated id lies in `[1, i32::MAX]` — never
0 (reserved for authentication) and never negative. -/
theorem C4_sequence_counter (s : Int) (h0 : 0 ≤ s) (h1 : s ≤ 2147483647) :
    (1 ≤ nextId s ∧ nextId s ≤ 2147483647 ∧ nextId s ≠ 0) ∧
    nextId 2147483647 = 1 ∧
    (∀ password stream c sent,
      RconClient.authenticate password stream = (.ok c, sent) → c = 0) := by
  refine ⟨by unfold nextId; split <;> omega, by unfold nextId; simp, ?_⟩
  intro password stream c sent h
  unfold RconClient.authenticate at h
  repeat' split at h
  all_goals simp_all

theorem C4_witness :
    (1 ≤ nextId 0 ∧ nextId 0 ≤ 2147483647 ∧ nextId 0 ≠ 0) ∧
    nextId 2147483647 = 1 ∧
    (∀ password stream c sent,
      RconClient.authenticate password stream = (.ok c, sent) → c = 0) :=
  C4_sequence_counter 0 (by decide) (by decide)

/-- Claim C7: reading a frame starts with exactly the 4 size-prefix bytes; a
decoded size outside `[10, 4106]` (negative values included) fails with a
`Decode` error without consuming any payload byte (the result does not
depend on the bytes after the prefix); independently, decoding any body
buffer shorter than 10 bytes fails with a `Decode` error. -/
theorem C7_size_validation (b0 b1 b2 b3 : Nat) (rest rest2 buf : List Nat)
    (hs : i32FromLeBytes b0 b1 b2 b3 < 10 ∨ 4106 < i32FromLeBytes b0 b1 b2 b3)
    (hb : buf.length < 10) :
    (∃ m, read_size (b0 :: b1 :: b2 :: b3 :: rest) = .error (.Decode m)) ∧
    read_size (b0 :: b1 :: b2 :: b3 :: rest) = read_size (b0 :: b1 :: b2 :: b3 :: rest2) ∧
    (∃ m, RconPacket.decode buf = .error (.Decode m)) := by
  have hrs : ∀ r : List Nat, read_size (b0 :: b1 :: b2 :: b3 :: r) =
      (if i32FromLeBytes b0 b1 b2 b3 < 0 then
        .error (.Decode "Failed to convert packet size to usize")
      else .error (.Decode ("A packet size must be between "
        ++ toString RconPacket.MIN_PACKET_SIZE ++ " and "
        ++ toString RconPacket.MAX_PACKET_SIZE ++ " bytes long, server sent: "
        ++ toString (i32FromLeBytes b0 b1 b2 b3).toNat))) := by
    intro r
    unfold read_size
    dsimp only
    split
    · rfl
    · rw [if_pos (by
        simp only [RconPacket.MIN_PACKET_SIZE, RconPacket.MAX_PACKET_SIZE]
        omega)]
  refine ⟨?_, by rw [hrs rest, hrs rest2], ?_⟩
  · rw [hrs rest]
    split
    · exact ⟨_, rfl⟩
    · exact ⟨_, rfl⟩
  · unfold RconPacket.decode
    rw [if_pos (by simp only [RconPacket.MIN_PACKET_SIZE]; omega)]
    exact ⟨_, rfl⟩

theorem C7_witness :
    (∃ m, read_size (0 :: 0 :: 0 :: 0 :: [9, 9]) = .error (.Decode m)) ∧
    read_size (0 :: 0 :: 0 :: 0 :: [9, 9]) = read_size (0 :: 0 :: 0 :: 0 :: []) ∧
    (∃ m, RconPacket.decode [0, 0, 0] = .error (.Decode m)) :=
  C7_size_validation 0 0 0 0 [9, 9] [] [0, 0, 0] (Or.inl (by decide)) (by decide)

/-- Claim C9: whenever the `"list"` response contains no occurrence of the
separator `": "`, `Client::list` succeeds with the empty player list —
it neither fails nor returns the raw text as a single name. -/
theorem C9_list_no_separator (actor : ActorCommand → Except RconError String)
    (resp : String) (hresp : actor (.Other "list") = .ok resp)
    (hno : ∀ pre post, resp.data ≠ pre ++ ": ".data ++ post) :
    Client.list actor = .ok [] := by
  have hsp : splitOnceChars ": ".data resp.data = none := by
    cases hsp : splitOnceChars ": ".data resp.data with
    | none => rfl
    | some v =>
      obtain ⟨a, b⟩ := v
      exact absurd (splitOnceChars_decomp hsp) (hno a b)
  unfold Client.list run_command
  rw [hresp]
  dsimp only
  rw [hsp]

theorem C9_witness :
    Client.list (fun _ => .ok "nothing here") = .ok [] :=
  C9_list_no_separator (fun _ => .ok "nothing here") "nothing here" rfl
    (splitOnceChars_none_no_occurrence (by decide) (by decide))

/-- Claim C10: when the first response frame's id differs from the just-sent
sequence id, `command` reports `IdMismatch` carrying literal `0` as the
expected id rather than the id actually sent — for every counter value, and
the sent id is always ≥ 1. -/
theorem C10_idmismatch_expected_zero (seq : Int) (data : String) (p : RconPacket)
    (rest : List Nat) (h0 : 0 ≤ seq)
    (hdata : (strBytes data).length ≤ RconPacket.MAX_CLIENT_PAYLOAD_SIZE)
    (hp : frameOk p) (hne : p.id ≠ nextId seq) :
    (RconClient.command seq data (frameBytes p ++ rest)).1 =
      .error (.IdMismatch 0 p.id) ∧ 1 ≤ nextId seq := by
  constructor
  · rw [command_first_frame seq data p rest h0 hdata hp]
    rw [if_pos hne]
  · unfold nextId
    split <;> omega

theorem C10_witness :
    (RconClient.command 0 "x" (frameBytes ⟨5, .Response, "r"⟩ ++ [])).1 =
      .error (.IdMismatch 0 5) ∧ 1 ≤ nextId 0 :=
  C10_idmismatch_expected_zero 0 "x" ⟨5, .Response, "r"⟩ [] (by decide) (by decide)
    (by decide) (by decide)

/-- The connection-manager handler leaves the cache in one of three shapes:
an error with nothing cached, a successful stop with nothing cached, or a
successful non-stop command with a client cached. -/
theorem handle_shape (client : Option Int) (msg : ActorCommand) (connectOk : Bool)
    (password : String) (authStream cmdStream : List Nat) :
    (∃ e, RconActor.handle client msg connectOk password authStream cmdStream =
      (.error e, none)) ∨
    (∃ r, RconActor.handle client msg connectOk password authStream cmdStream =
      (.ok r, none) ∧ msg = .Stop) ∨
    (∃ r c, RconActor.handle client msg connectOk password authStream cmdStream =
      (.ok r, some c) ∧ msg ≠ .Stop) := by
  unfold RconActor.handle
  split
  · exact Or.inl ⟨_, rfl⟩
  · dsimp only
    cases msg with
    | Stop =>
      dsimp only
      split
      · exact Or.inr (Or.inl ⟨_, rfl, rfl⟩)
      · exact Or.inl ⟨_, rfl⟩
    | Other s =>
      dsimp only
      split
      · exact Or.inr (Or.inr ⟨_, _, rfl, by simp⟩)
      · exact Or.inl ⟨_, rfl⟩

/-- Claim C5: the connection manager connects and authenticates lazily when no
client is cached (propagating those errors with nothing cached), keeps the
connection cached after a successful non-stop command, drops it after any
command failure, and also drops it after a successful `stop`. -/
theorem C5_actor_lifecycle (client : Option Int) (msg : ActorCommand) (connectOk : Bool)
    (password : String) (authStream cmdStream : List Nat) :
    (client = none → connectOk = false →
      RconActor.handle client msg connectOk password authStream cmdStream =
        (.error .Connect, none)) ∧
    (∀ e, client = none → connectOk = true →
      (RconClient.authenticate password authStream).1 = .error e →
      RconActor.handle client msg connectOk password authStream cmdStream =
        (.error e, none)) ∧
    (∀ e, (RconActor.handle client msg connectOk password authStream cmdStream).1 =
        .error e →
      (RconActor.handle client msg connectOk password authStream cmdStream).2 = none) ∧
    (∀ r, (RconActor.handle client msg connectOk password authStream cmdStream).1 =
        .ok r → msg ≠ .Stop →
      (RconActor.handle client msg connectOk password authStream cmdStream).2 ≠ none) ∧
    (∀ r, (RconActor.handle client msg connectOk password authStream cmdStream).1 =
        .ok r → msg = .Stop →
      (RconActor.handle client msg connectOk password authStream cmdStream).2 = none) := by
  refine ⟨?_, ?_, ?_, ?_, ?_⟩
  · intro hc hk
    subst hc hk
    rfl
  · intro e hc hk he
    subst hc hk
    unfold RconActor.handle
    dsimp only
    rw [he]
    rfl
  · intro e h
    rcases handle_shape client msg connectOk password authStream cmdStream with
      ⟨e', heq⟩ | ⟨r, heq, -⟩ | ⟨r, c, heq, -⟩ <;> rw [heq] at h ⊢ <;> simp_all
  · intro r h hmsg
    rcases handle_shape client msg connectOk password authStream cmdStream with
      ⟨e', heq⟩ | ⟨r', heq, hstop⟩ | ⟨r', c, heq, -⟩ <;> rw [heq] at h ⊢ <;> simp_all
  · intro r h hmsg
    rcases handle_shape client msg connectOk password authStream cmdStream with
      ⟨e', heq⟩ | ⟨r', heq, -⟩ | ⟨r', c, heq, hstop⟩ <;> rw [heq] at h ⊢ <;> simp_all

theorem C5_witness :
    RconActor.handle none (.Other "list") false "pw" [] [] = (.error .Connect, none) :=
  (C5_actor_lifecycle none (.Other "list") false "pw" [] []).1 rfl rfl

/-- Claim C6, counterexample: a reassembly frame whose id equals the probe id
and whose payload is not `"Unknown request 0"` does not always fail with
`InvalidPacketType`: when its type is Command the loop silently skips it.
With probe id 2 and original id 1, a Command frame with id 2 and payload
`"x"` followed by the terminator yields success `"acc"`, not an error. -/
theorem C6_counterexample :
    read_fragmented_loop (frameBytes ⟨2, .Command, "x"⟩ ++
      frameBytes ⟨2, .Response, "Unknown request 0"⟩) "acc" 2 1 = .ok "acc" := by
  rw [show frameBytes ⟨2, .Response, "Unknown request 0"⟩ =
    frameBytes ⟨2, .Response, "Unknown request 0"⟩ ++ [] by simp]
  rw [read_fragmented_loop_frame ⟨2, .Command, "x"⟩ _ "acc" 2 1 (by decide)]
  rw [if_neg (by decide), if_pos (by decide), if_neg (by decide)]
  rw [read_fragmented_loop_frame ⟨2, .Response, "Unknown request 0"⟩ [] "acc" 2 1
    (by decide)]
  rw [if_neg (by decide), if_pos (by decide), if_pos (by decide), if_pos (by decide)]

/-- Claim C6, amended: during reassembly, a frame whose id equals the probe id
fails with `InvalidPacketType` exactly when its type is Response and its
payload differs from `"Unknown request 0"`; a probe-id frame of type Command
is silently skipped and the loop continues on the remaining stream; a frame
whose id equals neither the original command id nor the probe id fails with
`IdMismatch(new_id, that id)`. -/
theorem C6_amended_loop_dispatch (p : RconPacket) (rest : List Nat) (acc : String)
    (new_id id : Int) (hp : frameOk p) (hne : p.id ≠ id) :
    (p.id = new_id → p.packet_type = .Response → p.payload ≠ "Unknown request 0" →
      read_fragmented_loop (frameBytes p ++ rest) acc new_id id =
        .error (.InvalidPacketType "response" "response")) ∧
    (p.id = new_id → p.packet_type = .Command →
      read_fragmented_loop (frameBytes p ++ rest) acc new_id id =
        read_fragmented_loop rest acc new_id id) ∧
    (p.id ≠ new_id →
      read_fragmented_loop (frameBytes p ++ rest) acc new_id id =
        .error (.IdMismatch new_id p.id)) := by
  rw [read_fragmented_loop_frame p rest acc new_id id hp]
  refine ⟨?_, ?_, ?_⟩
  · intro h1 h2 h3
    rw [if_neg hne, if_pos h1, if_pos h2, if_neg h3, h2]
    rfl
  · intro h1 h2
    rw [if_neg hne, if_pos h1, if_neg (by simp [h2])]
  · intro h1
    rw [if_neg hne, if_neg h1]

theorem C6_witness :
    read_fragmented_loop (frameBytes ⟨7, .Response, "bad"⟩ ++ []) "" 2 1 =
      .error (.IdMismatch 2 7) :=
  (C6_amended_loop_dispatch ⟨7, .Response, "bad"⟩ [] "" 2 1 (by decide) (by decide)).2.2
    (by decide)

/-- Claim C8: `query_tick` sends `"tick query"`; after replacing `:` `,` `(`
`)` by spaces, the whitespace-separated tokens ending in `"ms"` are
collected; exactly five become, in order, average, target, p50, p95, p99;
any other count fails with a parse error carrying the raw response. -/
theorem C8_query_tick_parsing (actor : ActorCommand → Except RconError String)
    (resp : String) (hresp : actor (.Other "tick query") = .ok resp) :
    ((tickTimings resp).length = 5 →
      Client.query_tick actor = .ok ⟨⟨(tickTimings resp).getD 0 []⟩,
        ⟨(tickTimings resp).getD 1 []⟩, ⟨(tickTimings resp).getD 2 []⟩,
        ⟨(tickTimings resp).getD 3 []⟩, ⟨(tickTimings resp).getD 4 []⟩⟩) ∧
    ((tickTimings resp).length ≠ 5 →
      Client.query_tick actor = .error (.TickStats resp)) := by
  unfold Client.query_tick run_command
  rw [hresp]
  dsimp only
  constructor
  · intro h
    rw [if_neg (by simp [h])]
  · intro h
    rw [if_pos h]

theorem C8_witness :
    Client.query_tick (fun _ => .ok
      "Average time per tick: 13.2ms (Target: 50.0ms) Percentiles: P50: 13.0ms P95: 16.0ms P99: 18.6ms") =
      .ok ⟨"13.2ms", "50.0ms", "13.0ms", "16.0ms", "18.6ms"⟩ := by
  have h := (C8_query_tick_parsing (fun _ => .ok
      "Average time per tick: 13.2ms (Target: 50.0ms) Percentiles: P50: 13.0ms P95: 16.0ms P99: 18.6ms")
    "Average time per tick: 13.2ms (Target: 50.0ms) Percentiles: P50: 13.0ms P95: 16.0ms P99: 18.6ms"
    rfl).1 (by decide)
  rw [h]
  rfl

theorem nextId_bounds (s : Int) (h0 : 0 ≤ s) (h1 : s ≤ 2147483647) :
    1 ≤ nextId s ∧ nextId s ≤ 2147483647 := by
  unfold nextId
  split <;> omega

/-- Encoding a run of `'a'`s is the same run of byte 97. -/
theorem utf8Encode_replicate_a (n : Nat) :
    utf8Encode (List.replicate n 'a') = List.replicate n 97 := by
  induction n with
  | zero => rfl
  | succ n ih =>
    rw [List.replicate_succ, List.replicate_succ]
    show utf8EncodeChar 'a'.toNat ++ utf8Encode (List.replicate n 'a') =
      97 :: List.replicate n 97
    rw [ih]
    rfl

/-- Claim C1: when the first response frame is Response-typed with matching id
and its size-prefix value equals exactly 4106, `command` enters reassembly:
it allocates one fresh sequence id, sends exactly one empty Response-type
probe packet with that id (after the command packet itself), appends to the
first payload the payload of every continuation frame carrying the original
command id in receipt order, and returns the accumulated string when a
Response frame with the probe id and payload `"Unknown request 0"`
arrives. -/
theorem C1_fragmentation_reassembly (seq : Int) (data : String) (p0 term : RconPacket)
    (conts : List RconPacket)
    (h0 : 0 ≤ seq) (h1 : seq ≤ 2147483647)
    (hdata : (strBytes data).length ≤ RconPacket.MAX_CLIENT_PAYLOAD_SIZE)
    (hp0 : frameOk p0) (hp0id : p0.id = nextId seq)
    (hp0ty : p0.packet_type = .Response)
    (hp0size : p0.body.length = RconPacket.MAX_PACKET_SIZE)
    (hconts : ∀ p ∈ conts, frameOk p ∧ p.id = nextId seq)
    (htermok : frameOk term) (htermid : term.id = nextId (nextId seq))
    (htermty : term.packet_type = .Response)
    (htermpl : term.payload = "Unknown request 0") :
    RconClient.command seq data
        (frameBytes p0 ++ (framesBytes conts ++ frameBytes term)) =
      (.ok (p0.payload ++ payloadsConcat conts), nextId (nextId seq),
        [⟨nextId seq, .Command, data⟩, ⟨nextId (nextId seq), .Response, ""⟩]) := by
  obtain ⟨hid1, hidmax⟩ := nextId_bounds seq h0 h1
  have hnid1 : 1 ≤ nextId (nextId seq) := (nextId_bounds _ (by omega) hidmax).1
  have hneq : nextId (nextId seq) ≠ nextId seq := by
    generalize hx : nextId seq = x at hid1 hidmax ⊢
    unfold nextId
    split <;> omega
  rw [command_first_frame seq data p0 _ h0 hdata hp0]
  rw [if_neg (by simp [hp0id]), if_pos hp0ty, if_pos hp0size]
  unfold read_fragmented
  have hcheck : RconPacket.check (nextId (nextId seq)) =
      .ok ⟨nextId (nextId seq), .Response, ""⟩ := by
    unfold RconPacket.check RconPacket.new
    rw [if_neg (by omega), if_neg (by decide)]
  rw [hcheck]
  dsimp only
  have henc : (⟨nextId (nextId seq), .Response, ""⟩ : RconPacket).encode =
      .ok (frameBytes ⟨nextId (nextId seq), .Response, ""⟩) := by
    apply RconPacket.encode_ok
    rw [RconPacket.body_length]
    dsimp only
    decide
  rw [henc]
  dsimp only
  rw [read_fragmented_loop_spec conts p0.payload (nextId (nextId seq)) (nextId seq) term
    hconts htermok htermid htermty htermpl hneq]

theorem C1_witness :
    RconClient.command 0 "cmd" (frameBytes ⟨1, .Response, ⟨List.replicate 4096 'a'⟩⟩ ++
      (framesBytes [⟨1, .Response, "tail"⟩] ++
        frameBytes ⟨2, .Response, "Unknown request 0"⟩)) =
      (.ok ((⟨List.replicate 4096 'a'⟩ : String) ++ ("tail" ++ "")), 2,
        [⟨1, .Command, "cmd"⟩, ⟨2, .Response, ""⟩]) := by
  have hrep : (strBytes ⟨List.replicate 4096 'a'⟩).length = 4096 := by
    show (utf8Encode (List.replicate 4096 'a')).length = 4096
    rw [utf8Encode_replicate_a]
    exact List.length_replicate _ _
  exact C1_fragmentation_reassembly 0 "cmd" ⟨1, .Response, ⟨List.replicate 4096 'a'⟩⟩
    ⟨2, .Response, "Unknown request 0"⟩ [⟨1, .Response, "tail"⟩]
    (by decide) (by decide) (by decide)
    ⟨by decide, by decide, by decide, hrep.le⟩
    (by decide) rfl
    (by rw [RconPacket.body_length,
          show (⟨1, .Response, ⟨List.replicate 4096 'a'⟩⟩ : RconPacket).payload =
            (⟨List.replicate 4096 'a'⟩ : String) from rfl, hrep]
        rfl)
    (by intro p hp; simp at hp; subst hp; exact ⟨⟨by decide, by decide, by decide, by decide⟩, by decide⟩)
    (by decide) (by decide) rfl rfl
